import Mathlib

/-!
Verification development for the health-claim verification front-end.

The embedding below models, directly from the TypeScript source:
* `src/context/VerificationContext.tsx` — the verification history store
  (reducer over a list of records, lookup, and the localStorage load/save
  effects);
* `src/services/api.ts` — the verification client's mock fallback;
* `src/services/newsApi.ts` — the news client's mock fallback;
* `src/pages/ResultsPage.tsx` — the verdict-to-rendering-configuration map.

JavaScript numbers are modelled as rationals (`ℚ`), `Math.random()` outcomes
as explicit rational parameters in `[0, 1)`, optional (possibly-`undefined`)
fields as `Option`, and JSON values as an inductive `Json` tree
(`JSON.parse ∘ JSON.stringify` is the identity at this tree level).
-/

namespace HealthCheck

/-- A citation, as in the `Citation` interface of
`src/context/VerificationContext.tsx` (`publishedAt` and `summary` are
optional there). -/
structure Citation where
  title : String
  source : String
  url : String
  publishedAt : Option String
  summary : Option String
deriving DecidableEq

/-- A verification result, as in the `VerificationResult` interface of
`src/context/VerificationContext.tsx` (`citations`, `language`, `model` and
`processingTime` are optional there). -/
structure VerificationResult where
  verdict : String
  confidence : ℚ
  explanation : String
  citations : Option (List Citation)
  language : Option String
  model : Option String
  processingTime : Option String
deriving DecidableEq

/-- A history record, as in the `Verification` interface of
`src/context/VerificationContext.tsx`. -/
structure Verification where
  id : String
  input : String
  result : VerificationResult
  timestamp : String
deriving DecidableEq

/-- The reducer state: `interface VerificationState { verifications: Verification[] }`. -/
structure VerificationState where
  verifications : List Verification
deriving DecidableEq

/-- The four reducer actions of `type VerificationAction` in
`src/context/VerificationContext.tsx`. -/
inductive VerificationAction where
  | addVerification (payload : Verification)
  | removeVerification (payload : String)
  | clearHistory
  | loadFromStorage (payload : List Verification)
deriving DecidableEq

/-- `verificationReducer` from `src/context/VerificationContext.tsx`:
`ADD_VERIFICATION` prepends the payload, `REMOVE_VERIFICATION` filters out
records whose `id` equals the payload (`v.id !== action.payload`),
`CLEAR_HISTORY` empties the list, `LOAD_FROM_STORAGE` replaces the list
wholesale. -/
def verificationReducer (state : VerificationState) (action : VerificationAction) :
    VerificationState :=
  match action with
  | .addVerification p => { state with verifications := p :: state.verifications }
  | .removeVerification id =>
      { state with verifications := state.verifications.filter (fun v => v.id != id) }
  | .clearHistory => { state with verifications := [] }
  | .loadFromStorage p => { state with verifications := p }

/-- `getVerification` from `src/context/VerificationContext.tsx`:
`state.verifications.find(v => v.id === id)` — the first match scanning from
the front of the list. -/
def getVerification (state : VerificationState) (id : String) : Option Verification :=
  state.verifications.find? (fun v => v.id == id)

/-- Dispatching a sequence of `ADD_VERIFICATION` actions in call order,
starting from a given state (each `addVerification` call dispatches one such
action). -/
def addAll (state : VerificationState) (records : List Verification) : VerificationState :=
  records.foldl (fun s r => verificationReducer s (.addVerification r)) state

/-- The records an action can inject into the state: `ADD_VERIFICATION`
injects its payload, `LOAD_FROM_STORAGE` its payload list, the others none.
Used to state that the reducer never fabricates or mutates a record. -/
def actionRecords : VerificationAction → List Verification
  | .addVerification p => [p]
  | .loadFromStorage l => l
  | .removeVerification _ => []
  | .clearHistory => []

/-- Model of JavaScript `String.prototype.toLowerCase()` (character-wise
lowercasing). -/
def toLowerCase (s : String) : String := ⟨s.data.map Char.toLower⟩

/-- `isPrefixOfChars p l` : the character list `p` is a prefix of `l`. -/
def isPrefixOfChars : List Char → List Char → Bool
  | [], _ => true
  | _ :: _, [] => false
  | a :: as, b :: bs => a == b && isPrefixOfChars as bs

/-- `containsSubAux sub l` : `sub` occurs as a contiguous run in `l`. -/
def containsSubAux (sub : List Char) : List Char → Bool
  | [] => isPrefixOfChars sub []
  | c :: cs => isPrefixOfChars sub (c :: cs) || containsSubAux sub cs

/-- Model of JavaScript `String.prototype.includes(sub)` : substring test. -/
def containsSubstr (s sub : String) : Bool := containsSubAux sub.toList s.toList

/-- A citation as in the `Citation` interface of `src/services/api.ts`
(all fields required there). -/
structure ApiCitation where
  title : String
  source : String
  url : String
  publishedAt : String
  summary : String
deriving DecidableEq

/-- A verification result as in the `VerificationResult` interface of
`src/services/api.ts` (all fields required there; the verdict union type is
modelled as `String`, the function below only produces the three literals). -/
structure ApiVerificationResult where
  verdict : String
  confidence : ℚ
  explanation : String
  citations : List ApiCitation
  language : String
  model : String
  processingTime : String
deriving DecidableEq

/-- The `mockCitations` array of `src/services/api.ts` (three canned
citations). -/
def mockCitations : List ApiCitation :=
  [{ title := "Vaccines and Autism: A Comprehensive Review"
     source := "Centers for Disease Control and Prevention"
     url := "https://www.cdc.gov/vaccinesafety/concerns/autism.html"
     publishedAt := "2024-01-15"
     summary := "Comprehensive analysis of vaccine safety data showing no link between vaccines and autism spectrum disorders." },
   { title := "Global Vaccine Safety Initiative"
     source := "World Health Organization"
     url := "https://www.who.int/vaccine_safety/initiative/detection/en/"
     publishedAt := "2024-02-10"
     summary := "WHO's ongoing efforts to monitor vaccine safety globally and address misinformation." },
   { title := "Nutritional Benefits of Citrus Fruits in Human Health"
     source := "PubMed Central"
     url := "https://www.ncbi.nlm.nih.gov/pmc/articles/PMC8234135/"
     publishedAt := "2023-11-20"
     summary := "Research review on the health benefits of citrus fruits including vitamin C content and antioxidant properties." }]

/-- The canned explanation of the vaccine/autism branch of
`getMockVerificationResult` in `src/services/api.ts`. -/
def vaccineAutismExplanation : String :=
  "This claim has been thoroughly debunked by extensive scientific research. Multiple large-scale studies involving millions of children have found no link between vaccines and autism. The original study suggesting this connection was retracted due to fraudulent data manipulation. Vaccines are safe, effective, and crucial for public health."

/-- The canned explanation of the lemon branch of `getMockVerificationResult`
in `src/services/api.ts`. -/
def lemonExplanation : String :=
  "While lemon water can be part of a healthy hydration routine, claims about significant metabolism boosting and weight loss effects are overstated. There's limited scientific evidence supporting dramatic metabolic benefits."

/-- The generic explanation of the final branch of
`getMockVerificationResult` in `src/services/api.ts`. -/
def genericExplanation : String :=
  "Based on our analysis of current medical literature and trusted health sources, this claim requires careful consideration. We recommend consulting with healthcare professionals for personalized medical advice."

/-- The outcomes of the `Math.random()` calls made by
`getMockVerificationResult` in `src/services/api.ts`, one field per call
site: the artificial delay, the verdict coin and confidence draw of the
generic branch, the citation-count draw of the shared return value, and the
processing-time draw. -/
structure MockRand where
  delayR : ℚ
  branchR : ℚ
  confR : ℚ
  citeR : ℚ
  timeR : ℚ
deriving DecidableEq

/-- Each modelled `Math.random()` outcome lies in `[0, 1)`. -/
def MockRand.Valid (r : MockRand) : Prop :=
  (0 ≤ r.delayR ∧ r.delayR < 1) ∧ (0 ≤ r.branchR ∧ r.branchR < 1) ∧
    (0 ≤ r.confR ∧ r.confR < 1) ∧ (0 ≤ r.citeR ∧ r.citeR < 1) ∧
    (0 ≤ r.timeR ∧ r.timeR < 1)

instance (r : MockRand) : Decidable r.Valid := by
  unfold MockRand.Valid; infer_instance

/-- Model of `Number.prototype.toFixed(1)` on a positive rational: round to
one decimal digit (half away from zero, which for the positive arguments used
here is half up) and print as `intPart.digit`. -/
def toFixed1 (q : ℚ) : String :=
  let n : ℤ := ⌊q * 10 + 1 / 2⌋
  toString (n / 10) ++ "." ++ toString (n % 10)

/-- The `processingTime` string of `src/services/api.ts`:
`` `${(2 + Math.random() * 2).toFixed(1)}s` ``. -/
def processingTimeStr (r : ℚ) : String := toFixed1 (2 + r * 2) ++ "s"

/-- `getMockVerificationResult` from `src/services/api.ts` (the artificial
delay is timing-only and does not affect the value). The three branches
choose verdict/confidence/explanation; the returned record always slices
`mockCitations` to a random count `Math.floor(1 + Math.random() * 3)` and
carries fixed `language`/`model` metadata. -/
def getMockVerificationResult (input : String) (rnd : MockRand) : ApiVerificationResult :=
  let containsVaccine := containsSubstr (toLowerCase input) "vaccine"
  let containsLemon := containsSubstr (toLowerCase input) "lemon"
  let vce : String × ℚ × String :=
    if containsVaccine && containsSubstr (toLowerCase input) "autism" then
      ("misleading", 95, vaccineAutismExplanation)
    else if containsLemon then
      ("needs review", 72, lemonExplanation)
    else
      ((if rnd.branchR > 1 / 2 then "true" else "needs review"),
        ((⌊(60 : ℚ) + rnd.confR * 35⌋ : ℤ) : ℚ), genericExplanation)
  { verdict := vce.1
    confidence := vce.2.1
    explanation := vce.2.2
    citations := mockCitations.take (Int.toNat ⌊(1 : ℚ) + rnd.citeR * 3⌋)
    language := "English"
    model := "BioBERT + GPT-4"
    processingTime := processingTimeStr rnd.timeR }

/-- A news article as in the `NewsArticle` interface of
`src/services/newsApi.ts` (all fields required). -/
structure NewsArticle where
  id : String
  title : String
  summary : String
  url : String
  publishedAt : String
  source : String
deriving DecidableEq

/-- The `mockNewsArticles` fixture array of `src/services/newsApi.ts`
(five canned articles with ids `"1"` … `"5"`). -/
def mockNewsArticles : List NewsArticle :=
  [{ id := "1"
     title := "New WHO Guidelines on Digital Health Interventions"
     summary := "The World Health Organization releases updated guidelines for digital health technologies and their implementation in healthcare systems worldwide."
     url := "https://www.who.int/news/item/01-01-2024-new-digital-health-guidelines"
     publishedAt := "2024-01-15T10:00:00Z"
     source := "WHO" },
   { id := "2"
     title := "CDC Updates Recommendations for Seasonal Flu Vaccination"
     summary := "Latest recommendations for the 2024 flu season, including new vaccine formulations and priority groups for vaccination."
     url := "https://www.cdc.gov/flu/season/recommendations-2024.html"
     publishedAt := "2024-01-14T14:30:00Z"
     source := "CDC" },
   { id := "3"
     title := "Breakthrough in Cancer Immunotherapy Research"
     summary := "Recent studies published in major medical journals show promising results for new immunotherapy approaches in treating various cancer types."
     url := "https://pubmed.ncbi.nlm.nih.gov/38234567/"
     publishedAt := "2024-01-13T09:15:00Z"
     source := "PubMed" },
   { id := "4"
     title := "Global Mental Health Initiative Launched by WHO"
     summary := "A comprehensive global initiative aimed at improving mental health services and reducing stigma worldwide."
     url := "https://www.who.int/news/item/12-01-2024-mental-health-initiative"
     publishedAt := "2024-01-12T11:45:00Z"
     source := "WHO" },
   { id := "5"
     title := "Antibiotic Resistance: New Surveillance Data Released"
     summary := "CDC releases latest data on antibiotic resistance patterns and provides updated guidelines for healthcare providers."
     url := "https://www.cdc.gov/drugresistance/surveillance-report-2024.html"
     publishedAt := "2024-01-11T16:20:00Z"
     source := "CDC" }]

/-- `getMockNewsArticles` from `src/services/newsApi.ts` (the artificial
delay is timing-only). `[...mockNewsArticles].sort(() => 0.5 - Math.random())`
reorders the fixture array by a randomized comparator; whatever the comparator
does, JavaScript `sort` returns a permutation of its input, so the shuffle
outcome is modelled as an explicit permutation parameter `shuffled`.
The result is `shuffled.slice(0, 5 + Math.floor(Math.random() * 3))`. -/
def getMockNewsArticles (shuffled : List NewsArticle) (countR : ℚ) : List NewsArticle :=
  shuffled.take (5 + Int.toNat ⌊countR * 3⌋)

/-- The rendering configuration returned by `getVerdictConfig` in
`src/pages/ResultsPage.tsx` (the icon component is named by a string). -/
structure VerdictConfig where
  icon : String
  color : String
  bgColor : String
  borderColor : String
  label : String
deriving DecidableEq

/-- `getVerdictConfig` from `src/pages/ResultsPage.tsx`: a switch on
`verdict.toLowerCase()` with cases `'true'` and `'misleading'` and a default
Needs Review configuration. -/
def getVerdictConfig (verdict : String) : VerdictConfig :=
  if toLowerCase verdict = "true" then
    { icon := "CheckCircle"
      color := "text-green-600 dark:text-green-400"
      bgColor := "bg-green-50 dark:bg-green-900/20"
      borderColor := "border-green-200 dark:border-green-800"
      label := "Verified True" }
  else if toLowerCase verdict = "misleading" then
    { icon := "XCircle"
      color := "text-red-600 dark:text-red-400"
      bgColor := "bg-red-50 dark:bg-red-900/20"
      borderColor := "border-red-200 dark:border-red-800"
      label := "Misleading" }
  else
    { icon := "AlertTriangle"
      color := "text-amber-600 dark:text-amber-400"
      bgColor := "bg-amber-50 dark:bg-amber-900/20"
      borderColor := "border-amber-200 dark:border-amber-800"
      label := "Needs Review" }

/-- JSON value trees. `JSON.parse ∘ JSON.stringify` is the identity at this
level (numbers are modelled as exact rationals), so serialization is modelled
by mapping records to `Json` trees and a healthy storage read returns the
stored tree unchanged. -/
inductive Json where
  | null
  | bool (b : Bool)
  | num (q : ℚ)
  | str (s : String)
  | arr (elems : List Json)
  | obj (fields : List (String × Json))

/-- An optional object field: `JSON.stringify` omits a key whose value is
`undefined`/absent. -/
def optField (k : String) : Option String → List (String × Json)
  | none => []
  | some s => [(k, Json.str s)]

/-- Serialized form of a `Citation`, field order as in the interface of
`src/context/VerificationContext.tsx`. -/
def encodeCitation (c : Citation) : Json :=
  Json.obj ([("title", Json.str c.title), ("source", Json.str c.source),
    ("url", Json.str c.url)]
    ++ optField "publishedAt" c.publishedAt ++ optField "summary" c.summary)

/-- Serialized form of a `VerificationResult`, field order as in the
interface of `src/context/VerificationContext.tsx`. -/
def encodeResult (r : VerificationResult) : Json :=
  Json.obj ([("verdict", Json.str r.verdict), ("confidence", Json.num r.confidence),
    ("explanation", Json.str r.explanation)]
    ++ (match r.citations with
        | none => []
        | some cs => [("citations", Json.arr (cs.map encodeCitation))])
    ++ optField "language" r.language ++ optField "model" r.model
    ++ optField "processingTime" r.processingTime)

/-- Serialized form of a `Verification` record. -/
def encodeVerification (v : Verification) : Json :=
  Json.obj [("id", Json.str v.id), ("input", Json.str v.input),
    ("result", encodeResult v.result), ("timestamp", Json.str v.timestamp)]

/-- `JSON.stringify(state.verifications)` at the `Json`-tree level: the save
effect of `VerificationProvider` writes this tree (as a string) under the key
`healthcheck-verifications`. -/
def encodeVerifications (l : List Verification) : Json :=
  Json.arr (l.map encodeVerification)

/-- Read back one optional string field: consumes the head field when it is
`(k, string)`, otherwise reports the field absent. -/
def takeOptStr (k : String) (fs : List (String × Json)) :
    Option String × List (String × Json) :=
  match fs with
  | (k2, Json.str v) :: rest => if k2 = k then (some v, rest) else (none, fs)
  | _ => (none, fs)

/-- Read back a serialized `Citation`. -/
def decodeCitation (j : Json) : Option Citation :=
  match j with
  | Json.obj ((k1, Json.str t) :: (k2, Json.str s) :: (k3, Json.str u) :: rest) =>
    if k1 = "title" ∧ k2 = "source" ∧ k3 = "url" then
      match takeOptStr "publishedAt" rest with
      | (p, rest1) =>
        match takeOptStr "summary" rest1 with
        | (sm, rest2) => if rest2.isEmpty then some ⟨t, s, u, p, sm⟩ else none
    else none
  | _ => none

/-- Read back a serialized list of `Citation`s. -/
def decodeCitationList : List Json → Option (List Citation)
  | [] => some []
  | j :: js =>
    match decodeCitation j, decodeCitationList js with
    | some c, some cs => some (c :: cs)
    | _, _ => none

/-- Read back the optional `citations` field. The outer `Option` is decode
failure; the inner one is the field being absent. -/
def takeOptCitations (fs : List (String × Json)) :
    Option (Option (List Citation) × List (String × Json)) :=
  match fs with
  | (k, Json.arr js) :: rest =>
    if k = "citations" then (decodeCitationList js).map (fun cs => (some cs, rest))
    else some (none, fs)
  | _ => some (none, fs)

/-- Read back a serialized `VerificationResult`. -/
def decodeResult (j : Json) : Option VerificationResult :=
  match j with
  | Json.obj ((k1, Json.str vd) :: (k2, Json.num cf) :: (k3, Json.str ex) :: rest) =>
    if k1 = "verdict" ∧ k2 = "confidence" ∧ k3 = "explanation" then
      match takeOptCitations rest with
      | none => none
      | some (cits, rest1) =>
        match takeOptStr "language" rest1 with
        | (lg, rest2) =>
          match takeOptStr "model" rest2 with
          | (md, rest3) =>
            match takeOptStr "processingTime" rest3 with
            | (pt, rest4) =>
              if rest4.isEmpty then some ⟨vd, cf, ex, cits, lg, md, pt⟩ else none
    else none
  | _ => none

/-- Read back a serialized `Verification` record. -/
def decodeVerification (j : Json) : Option Verification :=
  match j with
  | Json.obj [(k1, Json.str i), (k2, Json.str inp), (k3, r), (k4, Json.str ts)] =>
    if k1 = "id" ∧ k2 = "input" ∧ k3 = "result" ∧ k4 = "timestamp" then
      (decodeResult r).map (fun res => { id := i, input := inp, result := res, timestamp := ts })
    else none
  | _ => none

/-- Read back a serialized list of `Verification` records. -/
def decodeVerificationList : List Json → Option (List Verification)
  | [] => some []
  | j :: js =>
    match decodeVerification j, decodeVerificationList js with
    | some v, some vs => some (v :: vs)
    | _, _ => none

/-- A `Json` payload read as a collection of `Verification` records: it must
be an array of well-formed records. -/
def decodeVerifications (j : Json) : Option (List Verification) :=
  match j with
  | Json.arr js => decodeVerificationList js
  | _ => none

/-- The possible outcomes of the `localStorage.getItem` +`JSON.parse` step in
the load effect of `VerificationProvider`
(`src/context/VerificationContext.tsx`): the storage read throws
(`unavailable`), the key is absent or holds a falsy string (`missing`),
`JSON.parse` throws on the stored string (`malformed`), or parsing succeeds
with some JSON value (`parsed`). -/
inductive ReadOutcome where
  | unavailable
  | missing
  | malformed (raw : String)
  | parsed (j : Json)

/-- The collection value held by the state after the load effect of
`VerificationProvider` runs, as the dynamic (untyped) JSON value it is in
JavaScript. The state starts as `{ verifications: [] }`; the `try`/`catch`
swallows read and parse errors, leaving the initial empty array; a successful
parse dispatches `LOAD_FROM_STORAGE` with the parsed value as-is, with no
schema validation. The function is total: no outcome raises past the effect. -/
def loadDispatchedState (o : ReadOutcome) : Json :=
  match o with
  | .parsed j => j
  | _ => Json.arr []

/-- Modelled from the spec: `remove(id)` "removes the first (and expected
only) record whose `id` equals the argument". Stated only for comparison with
`verificationReducer`, which instead filters out every matching record. -/
def removeFirstMatchSpec (l : List Verification) (id : String) : List Verification :=
  match l with
  | [] => []
  | v :: t => if v.id == id then t else v :: removeFirstMatchSpec t id

/-- Concrete sample result used as test data below (shape of the spec's §8
scenario). -/
def sampleResult : VerificationResult :=
  { verdict := "true"
    confidence := 90
    explanation := "Sample explanation."
    citations := some []
    language := none
    model := none
    processingTime := none }

/-- Concrete sample record with id `"1"`. -/
def sampleRecord1 : Verification :=
  { id := "1", input := "claim A", result := sampleResult
    timestamp := "2024-01-01T00:00:00Z" }

/-- Concrete sample record with id `"2"`. -/
def sampleRecord2 : Verification :=
  { id := "2", input := "claim B", result := sampleResult
    timestamp := "2024-01-01T00:00:01Z" }

/-- A record with id `"dup"` (first version). -/
def dupRecordA : Verification :=
  { id := "dup", input := "first version", result := sampleResult
    timestamp := "2024-01-01T00:00:00Z" }

/-- A second, different record sharing id `"dup"`. -/
def dupRecordB : Verification :=
  { id := "dup", input := "second version", result := sampleResult
    timestamp := "2024-01-01T00:00:01Z" }

/-- Dispatching a sequence of adds prepends each record in turn: the
resulting collection is the reverse of the call order, in front of whatever
was already there. -/
theorem addAll_verifications (s : VerificationState) (rs : List Verification) :
    (addAll s rs).verifications = rs.reverse ++ s.verifications := by
  induction rs generalizing s with
  | nil => rfl
  | cons r t ih =>
    show (addAll (verificationReducer s (.addVerification r)) t).verifications = _
    rw [ih]
    simp [verificationReducer]

/-- In a collection whose ids are pairwise distinct, the front-to-back scan
of `find` locates exactly the record bearing the sought id. -/
theorem find?_id_of_nodup (l : List Verification) (r : Verification)
    (hn : (l.map Verification.id).Nodup) (hr : r ∈ l) :
    l.find? (fun v => v.id == r.id) = some r := by
  induction l with
  | nil => cases hr
  | cons v t ih =>
    rw [List.map_cons, List.nodup_cons] at hn
    rcases List.mem_cons.mp hr with h | h
    · subst h
      exact List.find?_cons_of_pos _ (by simp)
    · rw [List.find?_cons_of_neg _ (by
        simp only [beq_iff_eq]
        intro he
        exact hn.1 (by rw [he]; exact List.mem_map_of_mem Verification.id h))]
      exact ih hn.2 h

/-- C1: for every sequence of `add` calls on the history store in which all
record ids are distinct, the resulting collection is in
most-recently-added-first order (each `ADD_VERIFICATION` prepends), and
`getVerification` on each added id returns exactly the record added with that
id. -/
theorem addAll_distinct_get_and_order (rs : List Verification)
    (h : (rs.map Verification.id).Nodup) :
    (addAll ⟨[]⟩ rs).verifications = rs.reverse ∧
      ∀ r ∈ rs, getVerification (addAll ⟨[]⟩ rs) r.id = some r := by
  have hv : (addAll ⟨[]⟩ rs).verifications = rs.reverse := by
    rw [addAll_verifications]; simp
  refine ⟨hv, fun r hr => ?_⟩
  rw [getVerification, hv]
  exact find?_id_of_nodup rs.reverse r
    (by rw [List.map_reverse]; exact List.nodup_reverse.mpr h) (List.mem_reverse.mpr hr)

/-- Witness for C1 at the spec's §8 scenario: two records with ids `"1"` and
`"2"` added in that order end up in `["2", "1"]` order and each id looks up
its own record. -/
theorem addAll_distinct_get_and_order_witness :
    ([sampleRecord1, sampleRecord2].map Verification.id).Nodup ∧
      (addAll ⟨[]⟩ [sampleRecord1, sampleRecord2]).verifications =
        [sampleRecord2, sampleRecord1] ∧
      getVerification (addAll ⟨[]⟩ [sampleRecord1, sampleRecord2]) sampleRecord1.id =
        some sampleRecord1 :=
  ⟨by decide,
    (addAll_distinct_get_and_order [sampleRecord1, sampleRecord2] (by decide)).1,
    (addAll_distinct_get_and_order [sampleRecord1, sampleRecord2] (by decide)).2
      sampleRecord1 (by decide)⟩

/-- C2 counterexample: on a collection holding two different records that
share id `"dup"`, `REMOVE_VERIFICATION "dup"` removes BOTH (the reducer
filters every match), whereas removing only the first matching record would
leave the second one in place. -/
theorem remove_duplicates_counterexample :
    (verificationReducer ⟨[dupRecordA, dupRecordB]⟩
        (.removeVerification "dup")).verifications = [] ∧
      removeFirstMatchSpec [dupRecordA, dupRecordB] "dup" = [dupRecordB] ∧
      (verificationReducer ⟨[dupRecordA, dupRecordB]⟩
          (.removeVerification "dup")).verifications ≠
        removeFirstMatchSpec [dupRecordA, dupRecordB] "dup" := by
  refine ⟨by decide, by decide, by decide⟩

/-- C2 (amended): `remove(id)` removes every record whose id equals the
argument (for a collection with distinct ids this is the single matching
record); afterwards `get(id)` is absent; records with other ids survive; and
when no record carries the id the state is unchanged (a no-op, and the
reducer is total, so no error is raised). -/
theorem remove_spec (s : VerificationState) (id : String) :
    getVerification (verificationReducer s (.removeVerification id)) id = none ∧
      (∀ v ∈ (verificationReducer s (.removeVerification id)).verifications, v.id ≠ id) ∧
      (∀ v ∈ s.verifications, v.id ≠ id →
        v ∈ (verificationReducer s (.removeVerification id)).verifications) ∧
      ((∀ v ∈ s.verifications, v.id ≠ id) →
        verificationReducer s (.removeVerification id) = s) := by
  refine ⟨?_, ?_, ?_, ?_⟩
  · rw [getVerification, List.find?_eq_none]
    intro v hv
    have := (List.mem_filter.mp hv).2
    simp only [bne_iff_ne, ne_eq] at this
    simp [this]
  · intro v hv
    have := (List.mem_filter.mp hv).2
    simpa using this
  · intro v hv hne
    exact List.mem_filter.mpr ⟨hv, by simpa using hne⟩
  · intro h
    cases s with
    | mk l =>
      simp only [verificationReducer, VerificationState.mk.injEq]
      exact List.filter_eq_self.mpr fun v hv => by simpa using h v hv

/-- Witness for C2 (amended): removing an absent id `"2"` from a singleton
collection with id `"1"` leaves the state unchanged, and the id `"1"` record
is gone after removing `"1"`. -/
theorem remove_spec_witness :
    sampleRecord1.id ≠ "2" ∧
      verificationReducer ⟨[sampleRecord1]⟩ (.removeVerification "2") = ⟨[sampleRecord1]⟩ ∧
      getVerification (verificationReducer ⟨[sampleRecord1]⟩ (.removeVerification "1")) "1" =
        none :=
  ⟨by decide,
    (remove_spec ⟨[sampleRecord1]⟩ "2").2.2.2 (by decide),
    (remove_spec ⟨[sampleRecord1]⟩ "1").1⟩

/-- C8: no reducer action fabricates or partially updates a record — every
record present after an action is, verbatim (all fields exactly equal),
either a record that was already in the collection or one injected whole by
the action (`ADD_VERIFICATION`'s payload or `LOAD_FROM_STORAGE`'s payload
list). Consequently an existing record is either kept entirely unchanged or
removed entirely. -/
theorem reducer_no_partial_update (s : VerificationState) (a : VerificationAction) :
    ∀ v ∈ (verificationReducer s a).verifications,
      v ∈ s.verifications ∨ v ∈ actionRecords a := by
  intro v hv
  cases a with
  | addVerification p =>
    simp only [verificationReducer] at hv
    rcases List.mem_cons.mp hv with h | h
    · right; simp [actionRecords, h]
    · left; exact h
  | removeVerification id =>
    simp only [verificationReducer] at hv
    left
    exact List.mem_of_mem_filter hv
  | clearHistory =>
    simp only [verificationReducer] at hv
    cases hv
  | loadFromStorage l =>
    right
    exact hv

/-- Witness for C8: adding a record to the empty store yields only records
coming from the store or the action payload. -/
theorem reducer_no_partial_update_witness :
    sampleRecord1 ∈ (verificationReducer ⟨[]⟩ (.addVerification sampleRecord1)).verifications ∧
      (sampleRecord1 ∈ ([] : List Verification) ∨
        sampleRecord1 ∈ actionRecords (.addVerification sampleRecord1)) :=
  ⟨by decide,
    reducer_no_partial_update ⟨[]⟩ (.addVerification sampleRecord1) sampleRecord1 (by decide)⟩

/-- Scanning an appended list finds nothing in a first part whose elements
all fail the predicate, so the scan continues in the second part. -/
theorem find?_append_of_none (l₁ l₂ : List Verification) (p : Verification → Bool)
    (h : ∀ v ∈ l₁, p v = false) : (l₁ ++ l₂).find? p = l₂.find? p := by
  induction l₁ with
  | nil => rfl
  | cons a t ih =>
    rw [List.cons_append, List.find?_cons_of_neg _ (by simp [h a (List.mem_cons_self a t)])]
    exact ih fun v hv => h v (List.mem_cons_of_mem a hv)

/-- C10: when duplicate ids are possible (`add` performs no uniqueness
check), `getVerification` returns the most recently added record with the
sought id: for an add-call sequence `l₁ ++ p :: l₂` in which no call after
`p` uses `p`'s id (while earlier calls in `l₁` may), the lookup finds `p`,
the first match scanning from the front of the most-recent-first
collection. -/
theorem getVerification_returns_most_recent (l₁ l₂ : List Verification) (p : Verification)
    (h : ∀ v ∈ l₂, v.id ≠ p.id) :
    getVerification (addAll ⟨[]⟩ (l₁ ++ p :: l₂)) p.id = some p := by
  rw [getVerification, addAll_verifications]
  simp only [List.append_nil, List.reverse_append, List.reverse_cons, List.append_assoc]
  rw [find?_append_of_none _ _ _
    (fun v hv => by simpa using h v (List.mem_reverse.mp hv))]
  rw [List.singleton_append, List.find?_cons_of_pos _ (by simp)]

/-- Witness for C10: after adding `dupRecordA`, then `dupRecordB` with the
same id `"dup"`, then an unrelated record, `getVerification "dup"` returns
`dupRecordB`, the most recently added record with that id. -/
theorem getVerification_returns_most_recent_witness :
    (∀ v ∈ [sampleRecord1], v.id ≠ dupRecordB.id) ∧
      getVerification (addAll ⟨[]⟩ ([dupRecordA] ++ dupRecordB :: [sampleRecord1]))
          dupRecordB.id = some dupRecordB :=
  ⟨by decide, getVerification_returns_most_recent [dupRecordA] [sampleRecord1]
    dupRecordB (by decide)⟩

/-- C9: every verdict string other than case-insensitive `"true"` or
`"misleading"` — including anything outside the three-category taxonomy —
selects the Needs Review rendering configuration (the switch's default
branch). -/
theorem getVerdictConfig_default (verdict : String)
    (h1 : toLowerCase verdict ≠ "true") (h2 : toLowerCase verdict ≠ "misleading") :
    getVerdictConfig verdict =
      { icon := "AlertTriangle"
        color := "text-amber-600 dark:text-amber-400"
        bgColor := "bg-amber-50 dark:bg-amber-900/20"
        borderColor := "border-amber-200 dark:border-amber-800"
        label := "Needs Review" } := by
  simp [getVerdictConfig, h1, h2]

/-- Witness for C9: the out-of-taxonomy verdict `"FALSE"` renders as Needs
Review. -/
theorem getVerdictConfig_default_witness :
    toLowerCase "FALSE" ≠ "true" ∧ (getVerdictConfig "FALSE").label = "Needs Review" :=
  ⟨by decide, by rw [getVerdictConfig_default "FALSE" (by decide) (by decide)]⟩

/-- C3 (amended): whenever the storage read throws, the key is absent, or the
stored payload is malformed JSON (so `JSON.parse` throws), the load effect
leaves the collection empty — and the empty payload decodes as the valid
empty collection. The effect is a total function, so no failure outcome
raises past the adapter boundary. (A payload that parses as valid JSON of
the wrong schema is instead installed as-is — see the counterexample.) -/
theorem load_fails_soft (o : ReadOutcome) (h : ∀ j, o ≠ ReadOutcome.parsed j) :
    loadDispatchedState o = Json.arr [] ∧
      decodeVerifications (Json.arr []) = some [] := by
  refine ⟨?_, rfl⟩
  cases o with
  | parsed j => exact absurd rfl (h j)
  | unavailable => rfl
  | missing => rfl
  | malformed raw => rfl

/-- Witness for C3 (amended): a malformed stored payload loads as the empty
collection. -/
theorem load_fails_soft_witness :
    (∀ j, ReadOutcome.malformed "not json" ≠ ReadOutcome.parsed j) ∧
      loadDispatchedState (ReadOutcome.malformed "not json") = Json.arr [] :=
  ⟨fun _ h => ReadOutcome.noConfusion h,
    (load_fails_soft _ (fun _ h => ReadOutcome.noConfusion h)).1⟩

/-- C3 counterexample: the stored string `"42"` is valid JSON but not a valid
collection (it does not decode as one), yet the load effect does NOT yield an
empty collection — it dispatches the parsed number `42` as the new
`verifications` value, unvalidated. -/
theorem load_wrong_schema_counterexample :
    decodeVerifications (Json.num 42) = none ∧
      loadDispatchedState (ReadOutcome.parsed (Json.num 42)) = Json.num 42 ∧
      loadDispatchedState (ReadOutcome.parsed (Json.num 42)) ≠ Json.arr [] :=
  ⟨rfl, rfl, fun h => Json.noConfusion h⟩

/-- Reading back a serialized citation recovers it exactly. -/
theorem decodeCitation_encode (c : Citation) :
    decodeCitation (encodeCitation c) = some c := by
  obtain ⟨t, s, u, p, sm⟩ := c
  cases p <;> cases sm <;>
    simp [encodeCitation, decodeCitation, optField, takeOptStr]

/-- Reading back a serialized citation list recovers it exactly. -/
theorem decodeCitationList_encode (cs : List Citation) :
    decodeCitationList (cs.map encodeCitation) = some cs := by
  induction cs with
  | nil => rfl
  | cons c t ih => simp [decodeCitationList, decodeCitation_encode, ih]

/-- Reading back a serialized verification result recovers it exactly, all
fields included. -/
theorem decodeResult_encode (r : VerificationResult) :
    decodeResult (encodeResult r) = some r := by
  obtain ⟨vd, cf, ex, cits, lg, md, pt⟩ := r
  cases cits <;> cases lg <;> cases md <;> cases pt <;>
    simp [encodeResult, decodeResult, optField, takeOptCitations, takeOptStr,
      decodeCitationList_encode]

/-- Reading back a serialized verification record recovers it exactly. -/
theorem decodeVerification_encode (v : Verification) :
    decodeVerification (encodeVerification v) = some v := by
  obtain ⟨i, inp, r, ts⟩ := v
  simp [encodeVerification, decodeVerification, decodeResult_encode]

/-- Reading back a serialized record list recovers it exactly. -/
theorem decodeVerificationList_encode (l : List Verification) :
    decodeVerificationList (l.map encodeVerification) = some l := by
  induction l with
  | nil => rfl
  | cons v t ih => simp [decodeVerificationList, decodeVerification_encode, ih]

/-- C4: round-trip — serializing a collection `X` (the save effect's
`JSON.stringify` under the `healthcheck-verifications` key) and loading it
back through a healthy storage read hands the parsed tree to the state
unchanged, and that tree denotes exactly `X`: record order and every field
value are preserved. -/
theorem save_load_roundtrip (X : List Verification) :
    loadDispatchedState (ReadOutcome.parsed (encodeVerifications X)) = encodeVerifications X ∧
      decodeVerifications (encodeVerifications X) = some X := by
  refine ⟨rfl, ?_⟩
  simp [decodeVerifications, encodeVerifications, decodeVerificationList_encode]

/-- For a draw `c` in `[0, 1)`, `Math.floor(1 + c * 3)` lies in `{1, 2, 3}`. -/
theorem citeCount_bounds (c : ℚ) (h0 : 0 ≤ c) (h1 : c < 1) :
    1 ≤ Int.toNat ⌊(1 : ℚ) + c * 3⌋ ∧ Int.toNat ⌊(1 : ℚ) + c * 3⌋ ≤ 3 := by
  have hfl : (1 : ℤ) ≤ ⌊(1 : ℚ) + c * 3⌋ := by
    apply Int.le_floor.mpr; push_cast; linarith
  have hfu : ⌊(1 : ℚ) + c * 3⌋ < 4 := by
    apply Int.floor_lt.mpr; push_cast; linarith
  omega

/-- C5 (amended): for every input containing both `"vaccine"` and `"autism"`
case-insensitively and every randomness outcome, the fallback returns verdict
`misleading`, confidence exactly `95`, and the canned explanation — but the
citations are NOT a fixed pair: their count is the random draw
`Math.floor(1 + Math.random() * 3)`, between 1 and 3, each taken from the
fixed `mockCitations` list. -/
theorem getMock_vaccine_autism (input : String) (rnd : MockRand) (hv : rnd.Valid)
    (h1 : containsSubstr (toLowerCase input) "vaccine" = true)
    (h2 : containsSubstr (toLowerCase input) "autism" = true) :
    (getMockVerificationResult input rnd).verdict = "misleading" ∧
      (getMockVerificationResult input rnd).confidence = 95 ∧
      (getMockVerificationResult input rnd).explanation = vaccineAutismExplanation ∧
      1 ≤ (getMockVerificationResult input rnd).citations.length ∧
      (getMockVerificationResult input rnd).citations.length ≤ 3 ∧
      ∀ c ∈ (getMockVerificationResult input rnd).citations, c ∈ mockCitations := by
  have hres : getMockVerificationResult input rnd =
      { verdict := "misleading"
        confidence := 95
        explanation := vaccineAutismExplanation
        citations := mockCitations.take (Int.toNat ⌊(1 : ℚ) + rnd.citeR * 3⌋)
        language := "English"
        model := "BioBERT + GPT-4"
        processingTime := processingTimeStr rnd.timeR } := by
    simp [getMockVerificationResult, h1, h2]
  obtain ⟨hb1, hb2⟩ := citeCount_bounds rnd.citeR hv.2.2.2.1.1 hv.2.2.2.1.2
  have h3 : mockCitations.length = 3 := rfl
  rw [hres]
  refine ⟨rfl, rfl, rfl, ?_, ?_, fun c hc => List.take_subset _ _ hc⟩
  · rw [List.length_take, h3]; omega
  · rw [List.length_take, h3]; omega

/-- Witness for C5 (amended): a concrete vaccine/autism input with all draws
at `0` yields the misleading verdict. -/
theorem getMock_vaccine_autism_witness :
    MockRand.Valid ⟨0, 0, 0, 0, 0⟩ ∧
      containsSubstr (toLowerCase "The Vaccine causes Autism") "vaccine" = true ∧
      (getMockVerificationResult "The Vaccine causes Autism" ⟨0, 0, 0, 0, 0⟩).verdict =
        "misleading" :=
  ⟨by decide, by decide,
    (getMock_vaccine_autism "The Vaccine causes Autism" ⟨0, 0, 0, 0, 0⟩
      (by decide) (by decide) (by decide)).1⟩

/-- C5 counterexample: on the vaccine/autism input with citation-count draw
`0`, the fallback returns exactly ONE citation, not the claimed fixed two
(`mockCitations.slice(0, Math.floor(1 + Math.random() * 3))` is randomized in
every branch). -/
theorem getMock_vaccine_autism_counterexample :
    (getMockVerificationResult "The Vaccine causes Autism" ⟨0, 0, 0, 0, 0⟩).verdict =
        "misleading" ∧
      (getMockVerificationResult "The Vaccine causes Autism"
          ⟨0, 0, 0, 0, 0⟩).citations.length = 1 := by
  have h1 : containsSubstr (toLowerCase "The Vaccine causes Autism") "vaccine" = true := by
    decide
  have h2 : containsSubstr (toLowerCase "The Vaccine causes Autism") "autism" = true := by
    decide
  have hk : Int.toNat ⌊(1 : ℚ) + (0 : ℚ) * 3⌋ = 1 := by simp
  constructor
  · simp [getMockVerificationResult, h1, h2]
  · simp [getMockVerificationResult, h1, h2, hk, mockCitations]

/-- C6 (amended): for every input containing `"lemon"` case-insensitively but
not the vaccine/autism combination, and every randomness outcome, the
fallback returns verdict `needs review`, confidence exactly `72`, and the
canned lemon explanation — but NOT exactly one citation: the citation count
is the random draw `Math.floor(1 + Math.random() * 3)`, between 1 and 3,
each taken from the fixed `mockCitations` list. -/
theorem getMock_lemon (input : String) (rnd : MockRand) (hv : rnd.Valid)
    (h1 : containsSubstr (toLowerCase input) "lemon" = true)
    (h2 : (containsSubstr (toLowerCase input) "vaccine" &&
      containsSubstr (toLowerCase input) "autism") = false) :
    (getMockVerificationResult input rnd).verdict = "needs review" ∧
      (getMockVerificationResult input rnd).confidence = 72 ∧
      (getMockVerificationResult input rnd).explanation = lemonExplanation ∧
      1 ≤ (getMockVerificationResult input rnd).citations.length ∧
      (getMockVerificationResult input rnd).citations.length ≤ 3 ∧
      ∀ c ∈ (getMockVerificationResult input rnd).citations, c ∈ mockCitations := by
  have hres : getMockVerificationResult input rnd =
      { verdict := "needs review"
        confidence := 72
        explanation := lemonExplanation
        citations := mockCitations.take (Int.toNat ⌊(1 : ℚ) + rnd.citeR * 3⌋)
        language := "English"
        model := "BioBERT + GPT-4"
        processingTime := processingTimeStr rnd.timeR } := by
    simp [getMockVerificationResult, h1, h2]
  obtain ⟨hb1, hb2⟩ := citeCount_bounds rnd.citeR hv.2.2.2.1.1 hv.2.2.2.1.2
  have h3 : mockCitations.length = 3 := rfl
  rw [hres]
  refine ⟨rfl, rfl, rfl, ?_, ?_, fun c hc => List.take_subset _ _ hc⟩
  · rw [List.length_take, h3]; omega
  · rw [List.length_take, h3]; omega

/-- Witness for C6 (amended): a concrete lemon input with all draws at `0`
yields the needs-review verdict. -/
theorem getMock_lemon_witness :
    MockRand.Valid ⟨0, 0, 0, 0, 0⟩ ∧
      containsSubstr (toLowerCase "Warm Lemon water") "lemon" = true ∧
      (getMockVerificationResult "Warm Lemon water" ⟨0, 0, 0, 0, 0⟩).verdict =
        "needs review" :=
  ⟨by decide, by decide,
    (getMock_lemon "Warm Lemon water" ⟨0, 0, 0, 0, 0⟩
      (by decide) (by decide) (by decide)).1⟩

/-- C6 counterexample: on a lemon input with citation-count draw `1/2`, the
fallback returns TWO citations, not the claimed exactly one. -/
theorem getMock_lemon_counterexample :
    (getMockVerificationResult "Lemon water boosts metabolism"
        ⟨0, 0, 0, 1 / 2, 0⟩).verdict = "needs review" ∧
      (getMockVerificationResult "Lemon water boosts metabolism"
          ⟨0, 0, 0, 1 / 2, 0⟩).citations.length = 2 := by
  have hl : containsSubstr (toLowerCase "Lemon water boosts metabolism") "lemon" = true := by
    decide
  have hv : containsSubstr (toLowerCase "Lemon water boosts metabolism") "vaccine" = false := by
    decide
  constructor
  · simp [getMockVerificationResult, hl, hv]
  · have hfl : ⌊(1 : ℚ) + (1 / 2 : ℚ) * 3⌋ = 2 := by
      rw [Int.floor_eq_iff]
      norm_num
    have hres : (getMockVerificationResult "Lemon water boosts metabolism"
        ⟨0, 0, 0, 1 / 2, 0⟩).citations =
        mockCitations.take (Int.toNat ⌊(1 : ℚ) + (1 / 2 : ℚ) * 3⌋) := by
      simp [getMockVerificationResult, hl, hv]
    rw [hres, hfl]
    rfl

/-- C7: whatever permutation the randomized comparator produces and whatever
the count draw, the news fallback returns between 5 and 7 articles inclusive
(in fact always 5: slicing a 5-element list to 5–7 items returns all 5), and
every returned article's id is one of the fixture ids `"1"` … `"5"`. -/
theorem news_fallback_bounds (shuffled : List NewsArticle) (countR : ℚ)
    (hp : shuffled.Perm mockNewsArticles) :
    5 ≤ (getMockNewsArticles shuffled countR).length ∧
      (getMockNewsArticles shuffled countR).length ≤ 7 ∧
      ∀ a ∈ getMockNewsArticles shuffled countR, a.id ∈ ["1", "2", "3", "4", "5"] := by
  have hlen : shuffled.length = 5 := hp.length_eq.trans rfl
  have hids : ∀ a ∈ mockNewsArticles, a.id ∈ ["1", "2", "3", "4", "5"] := by decide
  refine ⟨?_, ?_, ?_⟩
  · rw [getMockNewsArticles, List.length_take, hlen]; omega
  · rw [getMockNewsArticles, List.length_take, hlen]; omega
  · intro a ha
    exact hids a (hp.mem_iff.mp (List.take_subset _ _ ha))

/-- Witness for C7: the identity shuffle with count draw `0` returns at least
5 articles. -/
theorem news_fallback_bounds_witness :
    mockNewsArticles.Perm mockNewsArticles ∧
      5 ≤ (getMockNewsArticles mockNewsArticles 0).length :=
  ⟨List.Perm.refl mockNewsArticles,
    (news_fallback_bounds mockNewsArticles 0 (List.Perm.refl mockNewsArticles)).1⟩

end HealthCheck
